import Mathlib

/-!
Formal model of the push-to-talk speech-to-text tool implemented in
`src/main.py` (class `PushToTalkSTT`).

Modelling conventions:

* Audio samples are modelled as rational numbers (`ℚ`).  The recorded stream
  has dtype `float32` and every arithmetic step of the validation pipeline
  (sum, mean, absolute value, maximum, division by the peak) is exact on the
  inputs the claims are about, so `ℚ` is a faithful carrier; the final
  `astype(np.float32)` on data that is already `float32` is the identity and
  is modelled as such.
* The source compares `rms = sqrt(mean(x**2))` with the threshold `0.001`.
  Both sides are nonnegative, so the comparison is equivalent to comparing
  the squares; the model keeps the squared mean (`rmsSq`) and compares it
  with `silence_threshold ^ 2`, which avoids an irrational square root.
* Text is modelled as a list of characters; `str.strip()` is modelled by
  `pyStrip`, dropping whitespace from both ends.
* Stateful methods (`on_key_press`, `on_key_release`, `_record_audio`'s
  exception handler, `_transcribe_and_type`, `_type_text`) are modelled as
  pure functions from the relevant state to the new state together with the
  trace of externally visible events they perform: status-display updates,
  sleeps, the transcription-engine invocation, typed characters.
* The transcription engine (`self.model.transcribe`) is opaque: it is a
  parameter mapping the normalized samples either to a result text or to a
  raised exception.
-/

namespace WhisperApp

/-- Labels shown on the status overlay by `_update_status`.  Each constructor
corresponds to one of the literal strings used in `main.py`:
`"● Ready"`, `"● RECORDING"`, `"● Processing..."`, `"● Too short"`,
`"● Silence"`, `"● No text"`, `"● Error"`. -/
inductive Status
  | ready
  | recording
  | processing
  | tooShort
  | silence
  | noText
  | error
deriving DecidableEq, Repr

/-- Externally visible actions performed by the controller methods, in program
order.  `sleep` durations are in seconds.  `startCapture` is the launch of the
recording thread (lines 131-132), `processAudio` the launch of the
transcription thread (lines 211-212), `transcribe` the invocation of the
Whisper model (line 264), `typeChar` one `keyboard_controller.type(char)` call
(line 294), and `logInjectionError` the `except` branch of `_type_text`
(lines 298-299). -/
inductive Event
  | setStatus (s : Status)
  | sleep (seconds : ℚ)
  | startCapture
  | processAudio
  | transcribe
  | typeChar (c : Char)
  | logInjectionError
deriving DecidableEq, Repr

/-- Outcome of one call to the opaque transcription engine:
either a result text (`result["text"]`) or a raised exception. -/
inductive EngineOutcome
  | ok (text : List Char)
  | raises
deriving DecidableEq, Repr

/-- Outcome of the audio-validation section of `_transcribe_and_type`
(lines 229-260): rejected as too short, rejected as silence, or accepted with
the normalized sample array that is handed to the engine. -/
inductive ValidationResult
  | tooShort
  | silence
  | accepted (normalized : List ℚ)
deriving DecidableEq, Repr

/-- Sample rate in Hz (`sample_rate=16000`, line 21; the claims and the
specification fix this default). -/
def sample_rate : ℚ := 16000

/-- `silence_threshold = 0.001` (line 236). -/
def silence_threshold : ℚ := 1 / 1000

/-- `min_duration = 0.2` (line 237). -/
def min_duration : ℚ := 2 / 10

/-- Squared RMS of a sample array: `mean(audio_data ** 2)` (line 231).  The
source takes the square root and compares with `silence_threshold`; the model
keeps the square and compares with `silence_threshold ^ 2`, an equivalent
test since both sides are nonnegative.  (`0 / 0 = 0` covers the empty array,
which the duration check rejects before this value is ever used.) -/
def rmsSq (audio_data : List ℚ) : ℚ :=
  (audio_data.map fun x => x ^ 2).sum / (audio_data.length : ℚ)

/-- Peak amplitude: `np.abs(audio_data).max()` (lines 232 and 254), with the
maximum of the empty array taken to be `0` (the duration check rejects the
empty array before the value matters). -/
def peak (audio_data : List ℚ) : ℚ :=
  (audio_data.map fun x => |x|).foldr max 0

/-- Normalization step (lines 253-256): divide every sample by the peak when
the peak is positive, otherwise leave the array unchanged. -/
def normalizeAudio (audio_data : List ℚ) : List ℚ :=
  let max_val := peak audio_data
  if 0 < max_val then audio_data.map fun x => x / max_val else audio_data

/-- Audio validation as performed by `_transcribe_and_type` (lines 229-260) on
the concatenated sample array: duration check first (line 239), then the
silence check (line 246), then normalization (lines 253-256).  The `astype`
to `float32` (lines 258-260) is the identity on the already-`float32` data
and is modelled as such. -/
def validate (audio_data : List ℚ) : ValidationResult :=
  let rms_sq := rmsSq audio_data
  let max_amplitude := peak audio_data
  if (audio_data.length : ℚ) < sample_rate * min_duration then
    .tooShort
  else if rms_sq < silence_threshold ^ 2 ∧ max_amplitude < 1 / 100 then
    .silence
  else
    .accepted (normalizeAudio audio_data)

/-- The validation policy exactly as the specification words it (§4.3):
duration `sampleCount / sampleRate` below `0.2` seconds is too short; RMS
below `0.001` (stated on the square, see `rmsSq`) together with peak below
`0.01` is silence; otherwise accept and rescale every sample by `1 / peak`
when the peak is positive.  This is the spec-side definition, to be compared
with `validate`, which is translated from the code. -/
def validateSpec (samples : List ℚ) : ValidationResult :=
  if (samples.length : ℚ) / 16000 < 1 / 5 then
    .tooShort
  else if rmsSq samples < (1 / 1000) ^ 2 ∧ peak samples < 1 / 100 then
    .silence
  else
    .accepted (if 0 < peak samples then samples.map fun x => x / peak samples else samples)

/-- `str.strip()` as used on the transcription result (line 265): drop
whitespace characters from both ends of the text.  (Lean's `String.trim` has
the same semantics but is defined by well-founded recursion on byte
positions; this list form keeps the model executable.) -/
def pyStrip (text : List Char) : List Char :=
  ((text.dropWhile Char.isWhitespace).reverse.dropWhile Char.isWhitespace).reverse

/-- `_type_text` (lines 286-299): settle delay of `0.1` s, then one typed
character followed by a `0.01` s delay per character of the text.  Any
exception raised while typing is caught by the handler on lines 298-299,
which only logs it; `failAfter = some k` models an exception raised after `k`
characters were emitted, `none` models a run without failure.  In both cases
the function returns normally (the exception never escapes `_type_text`). -/
def typeText (text : List Char) (failAfter : Option Nat) : List Event :=
  match failAfter with
  | none =>
      Event.sleep (1 / 10) ::
        (text.map fun c => [Event.typeChar c, Event.sleep (1 / 100)]).flatten
  | some k =>
      Event.sleep (1 / 10) ::
        (((text.take k).map fun c => [Event.typeChar c, Event.sleep (1 / 100)]).flatten
          ++ [Event.logInjectionError])

/-- `_transcribe_and_type` (lines 214-284) as the trace of events it performs.
The buffer is the list of chunks captured by the session; `engine` is the
opaque transcription engine applied to the normalized samples (line 264);
`failAfter` parametrises the behaviour of the text injector (see `typeText`).
An engine exception is handled by the `except` block on lines 278-284, which
shows the Error status, sleeps one second and restores Ready. -/
def transcribeAndType (audio_buffer : List (List ℚ))
    (engine : List ℚ → EngineOutcome) (failAfter : Option Nat) : List Event :=
  if audio_buffer.isEmpty then
    [Event.setStatus .ready]
  else
    match validate audio_buffer.flatten with
    | .tooShort =>
        [Event.setStatus .tooShort, Event.sleep 1, Event.setStatus .ready]
    | .silence =>
        [Event.setStatus .silence, Event.sleep 1, Event.setStatus .ready]
    | .accepted normalized =>
        match engine normalized with
        | .raises =>
            [Event.transcribe, Event.setStatus .error, Event.sleep 1, Event.setStatus .ready]
        | .ok raw =>
            let text := pyStrip raw
            if text.isEmpty then
              [Event.transcribe, Event.setStatus .noText, Event.sleep 1, Event.setStatus .ready]
            else
              Event.transcribe :: (typeText text failAfter ++ [Event.setStatus .ready])

/-- The configured trigger key (`trigger_key`, line 30): either a printable
character given as a string, or a named special key (a pynput `Key` object). -/
inductive TriggerKey
  | charKey (s : String)
  | special (name : String)
deriving DecidableEq, Repr

/-- An incoming pynput key event: a `Key` object (special key, which has no
`char` attribute) or a `KeyCode` (whose `char` attribute may be `None`). -/
inductive PKey
  | special (name : String)
  | keycode (char : Option String)
deriving DecidableEq, Repr

/-- The key-matching logic duplicated in `on_key_press` (lines 112-120) and
`on_key_release` (lines 138-146): when the trigger is a string, the event
matches only if it has a `char` attribute equal to the trigger (the
`hasattr(key, 'char')` test screens out `Key` objects, and `None == s` is
`False` for a `KeyCode` without a character); when the trigger is a `Key`
object, the event must be the equal `Key` object (a `KeyCode` never equals a
`Key`). -/
def keyMatches (trigger : TriggerKey) (key : PKey) : Bool :=
  match trigger with
  | .charKey s =>
      match key with
      | .keycode c => c == some s
      | .special _ => false
  | .special n =>
      match key with
      | .special m => n == m
      | .keycode _ => false

/-- The controller state touched by the key handlers: the `is_recording` flag
(line 32), the chunk buffer `audio_buffer` (line 36), and a counter of
capture sessions started (each start of `recording_thread`, lines 131-132,
is one session). -/
structure ControllerState where
  is_recording : Bool
  audio_buffer : List (List ℚ)
  sessionsStarted : Nat
deriving DecidableEq, Repr

/-- `on_key_press` (lines 108-133): on a trigger match, if not already
recording, set the flag, clear the buffer, show the Recording status and
start the capture thread; while already recording (key repeat) or on a
non-matching key, do nothing. -/
def on_key_press (trigger : TriggerKey) (st : ControllerState) (key : PKey) :
    ControllerState × List Event :=
  if keyMatches trigger key then
    if !st.is_recording then
      ({ is_recording := true, audio_buffer := [],
         sessionsStarted := st.sessionsStarted + 1 },
       [Event.setStatus .recording, Event.startCapture])
    else (st, [])
  else (st, [])

/-- Grace wait after the stop signal: `time.sleep(0.2)` (line 156). -/
def graceWait : ℚ := 1 / 5

/-- `on_key_release` (lines 135-163): on a trigger match while recording,
clear the flag, show the Processing status, sleep the grace wait, then either
dispatch processing of the buffer (nonempty) or restore Ready (empty); on a
non-matching key or while not recording, do nothing. -/
def on_key_release (trigger : TriggerKey) (st : ControllerState) (key : PKey) :
    ControllerState × List Event :=
  if keyMatches trigger key then
    if st.is_recording then
      ({ st with is_recording := false },
       [Event.setStatus .processing, Event.sleep graceWait] ++
         (if st.audio_buffer.isEmpty then [Event.setStatus .ready]
          else [Event.processAudio]))
    else (st, [])
  else (st, [])

/-- The `except` handler of `_record_audio` (lines 200-206): on an unexpected
failure during recording it clears `is_recording` and displays the Error
status.  It performs no sleep and no further status update: unlike the
handler of `_transcribe_and_type`, it does not restore the Ready status. -/
def recordAudioFailure (st : ControllerState) : ControllerState × List Event :=
  ({ st with is_recording := false }, [Event.setStatus .error])

/-- `audio_callback` (lines 169-174): append a copy of the incoming chunk to
the buffer, but only when the `is_recording` flag is observed true. -/
def audio_callback (is_recording : Bool) (audio_buffer : List (List ℚ))
    (indata : List ℚ) : List (List ℚ) :=
  if is_recording then audio_buffer ++ [indata] else audio_buffer

/-- One invocation of the capture callback during a session: the chunk it
delivers, the instant it reads the `is_recording` flag, and the (no earlier)
instant its append to `audio_buffer` takes effect.  The flag is cleared by
`on_key_release` at the session's stop instant, so the callback appends
exactly when its flag read precedes the stop. -/
structure CaptureEvent where
  chunk : List ℚ
  checkTime : ℚ
  appendTime : ℚ
deriving DecidableEq, Repr

/-- The buffer a reader sees at instant `readTime`: the capture invocations
are listed in append order; an invocation contributes through
`audio_callback` with the flag value it observed (true exactly when its check
preceded `stopTime`), and only appends that have taken effect by `readTime`
are visible. -/
def capturedBuffer (stopTime readTime : ℚ) (events : List CaptureEvent) :
    List (List ℚ) :=
  (events.filter fun e => decide (e.appendTime ≤ readTime)).foldl
    (fun buf e => audio_callback (decide (e.checkTime < stopTime)) buf e.chunk) []

/-- The sample array handed to validation by `_transcribe_and_type`
(line 223): `np.concatenate(self.audio_buffer)` where the buffer is read at
`stopTime + graceWait`, after the grace sleep of `on_key_release`. -/
def handedToValidation (stopTime : ℚ) (events : List CaptureEvent) : List ℚ :=
  (capturedBuffer stopTime (stopTime + graceWait) events).flatten

/-- The capture invocations whose chunk was appended before the stop signal:
the flag check preceded the stop and the append took effect by the stop. -/
def appendedBeforeStop (stopTime : ℚ) (events : List CaptureEvent) :
    List CaptureEvent :=
  events.filter fun e =>
    decide (e.checkTime < stopTime) && decide (e.appendTime ≤ stopTime)

/-- The capture invocations whose chunk was appended within the grace window:
the flag check preceded the stop and the append took effect after the stop
but no later than `stopTime + graceWait`. -/
def appendedInGrace (stopTime : ℚ) (events : List CaptureEvent) :
    List CaptureEvent :=
  events.filter fun e =>
    decide (e.checkTime < stopTime) && decide (stopTime < e.appendTime) &&
      decide (e.appendTime ≤ stopTime + graceWait)

/-! ### Basic lemmas about `peak`, `rmsSq` and `validate` -/

lemma peak_nil : peak ([] : List ℚ) = 0 := rfl

lemma peak_cons (x : ℚ) (xs : List ℚ) : peak (x :: xs) = max |x| (peak xs) := rfl

lemma peak_nonneg (xs : List ℚ) : 0 ≤ peak xs := by
  induction xs with
  | nil => exact le_refl 0
  | cons x xs ih => exact le_trans ih (le_max_right _ _)

lemma abs_le_peak {x : ℚ} {xs : List ℚ} (h : x ∈ xs) : |x| ≤ peak xs := by
  induction xs with
  | nil => cases h
  | cons y ys ih =>
    rw [peak_cons]
    rcases List.mem_cons.mp h with rfl | h'
    · exact le_max_left _ _
    · exact le_trans (ih h') (le_max_right _ _)

lemma eq_zero_of_peak_eq_zero {xs : List ℚ} (h : peak xs = 0) :
    ∀ x ∈ xs, x = 0 := by
  intro x hx
  have h1 : |x| ≤ 0 := h ▸ abs_le_peak hx
  exact abs_eq_zero.mp (le_antisymm h1 (abs_nonneg x))

lemma peak_eq_zero {xs : List ℚ} (h : ∀ x ∈ xs, x = 0) : peak xs = 0 := by
  induction xs with
  | nil => rfl
  | cons y ys ih =>
    rw [peak_cons, h y (List.mem_cons_self y ys),
      ih fun x hx => h x (List.mem_cons_of_mem _ hx)]
    simp

lemma rmsSq_eq_zero {xs : List ℚ} (h : ∀ x ∈ xs, x = 0) : rmsSq xs = 0 := by
  have hsum : (xs.map fun x => x ^ 2).sum = 0 := by
    apply List.sum_eq_zero
    intro y hy
    rcases List.mem_map.mp hy with ⟨x, hx, rfl⟩
    rw [h x hx]
    ring
  rw [rmsSq, hsum, zero_div]

lemma peak_replicate {n : ℕ} (hn : n ≠ 0) (x : ℚ) :
    peak (List.replicate n x) = |x| := by
  induction n with
  | zero => exact absurd rfl hn
  | succ m ih =>
    rw [List.replicate_succ, peak_cons]
    rcases Nat.eq_zero_or_pos m with rfl | hm
    · rw [List.replicate_zero, peak_nil, max_eq_left (abs_nonneg x)]
    · rw [ih hm.ne', max_self]

lemma rmsSq_replicate {n : ℕ} (hn : n ≠ 0) (x : ℚ) :
    rmsSq (List.replicate n x) = x ^ 2 := by
  rw [rmsSq, List.map_replicate, List.sum_replicate, List.length_replicate,
    nsmul_eq_mul]
  exact mul_div_cancel_left₀ _ (by exact_mod_cast hn)

lemma sample_rate_mul_min_duration : sample_rate * min_duration = 3200 := by
  norm_num [sample_rate, min_duration]

/-- `validate` with the duration threshold evaluated:
`sample_rate * min_duration = 16000 * 0.2 = 3200` samples. -/
lemma validate_def (xs : List ℚ) :
    validate xs =
      if (xs.length : ℚ) < 3200 then .tooShort
      else if rmsSq xs < silence_threshold ^ 2 ∧ peak xs < 1 / 100 then .silence
      else .accepted (normalizeAudio xs) := by
  simp only [validate]
  rw [sample_rate_mul_min_duration]

lemma validate_eq_tooShort {xs : List ℚ} (h : xs.length < 3200) :
    validate xs = .tooShort := by
  rw [validate_def, if_pos (by exact_mod_cast h)]

lemma validate_eq_silence {xs : List ℚ} (h1 : 3200 ≤ xs.length)
    (h2 : rmsSq xs < silence_threshold ^ 2) (h3 : peak xs < 1 / 100) :
    validate xs = .silence := by
  have hlen : ¬((xs.length : ℚ) < 3200) := by
    exact_mod_cast not_lt.mpr h1
  rw [validate_def, if_neg hlen, if_pos ⟨h2, h3⟩]

lemma normalizeAudio_of_pos {xs : List ℚ} (h : 0 < peak xs) :
    normalizeAudio xs = xs.map fun x => x / peak xs := by
  simp only [normalizeAudio]
  rw [if_pos h]

/-- Whenever validation accepts an array, its peak is positive: an all-zero
array has zero squared RMS and zero peak, so the silence test (or the
duration test before it) would have rejected it.  Hence the division in the
normalization step never has a zero divisor. -/
lemma validate_accepted_peak_pos {xs : List ℚ} {n : List ℚ}
    (h : validate xs = .accepted n) : 0 < peak xs := by
  rcases lt_or_eq_of_le (peak_nonneg xs) with hp | hp
  · exact hp
  · exfalso
    have hz : ∀ x ∈ xs, x = 0 := eq_zero_of_peak_eq_zero hp.symm
    have hr : rmsSq xs = 0 := rmsSq_eq_zero hz
    rw [validate_def] at h
    by_cases hlen : (xs.length : ℚ) < 3200
    · rw [if_pos hlen] at h
      cases h
    · rw [if_neg hlen, if_pos ?_] at h
      · cases h
      · constructor
        · rw [hr]
          norm_num [silence_threshold]
        · rw [← hp]
          norm_num

/-! ### Concrete evaluations used by the witnesses -/

lemma validate_replicate_half :
    validate (List.replicate 3200 ((1 : ℚ) / 2)) =
      .accepted (List.replicate 3200 1) := by
  have hlen : ¬(((List.replicate 3200 ((1 : ℚ) / 2)).length : ℚ) < 3200) := by
    rw [List.length_replicate]
    norm_num
  have hrms : rmsSq (List.replicate 3200 ((1 : ℚ) / 2)) = 1 / 4 := by
    rw [rmsSq_replicate (by norm_num)]
    norm_num
  have hpk : peak (List.replicate 3200 ((1 : ℚ) / 2)) = 1 / 2 := by
    rw [peak_replicate (by norm_num)]
    norm_num
  have hns : ¬(rmsSq (List.replicate 3200 ((1 : ℚ) / 2)) < silence_threshold ^ 2 ∧
      peak (List.replicate 3200 ((1 : ℚ) / 2)) < 1 / 100) := by
    rw [hrms, hpk]
    norm_num [silence_threshold]
  rw [validate_def, if_neg hlen, if_neg hns,
    normalizeAudio_of_pos (by rw [hpk]; norm_num), hpk, List.map_replicate]
  norm_num

lemma validate_buf_half :
    validate ([List.replicate 3200 ((1 : ℚ) / 2)] : List (List ℚ)).flatten =
      .accepted (List.replicate 3200 1) := by
  have h : ([List.replicate 3200 ((1 : ℚ) / 2)] : List (List ℚ)).flatten =
      List.replicate 3200 ((1 : ℚ) / 2) := by
    rw [List.flatten_cons, List.flatten_nil, List.append_nil]
  rw [h]
  exact validate_replicate_half

lemma validate_replicate_zero_long :
    validate (List.replicate 3200 (0 : ℚ)) = .silence := by
  refine validate_eq_silence (by rw [List.length_replicate]) ?_ ?_
  · rw [rmsSq_replicate (by norm_num)]
    norm_num [silence_threshold]
  · rw [peak_replicate (by norm_num)]
    norm_num

lemma validate_buf_zero_short :
    validate ([List.replicate 100 (0 : ℚ)] : List (List ℚ)).flatten = .tooShort := by
  have h : ([List.replicate 100 (0 : ℚ)] : List (List ℚ)).flatten =
      List.replicate 100 (0 : ℚ) := by
    rw [List.flatten_cons, List.flatten_nil, List.append_nil]
  rw [h]
  exact validate_eq_tooShort (by rw [List.length_replicate]; norm_num)

lemma validate_buf_zero_long :
    validate ([List.replicate 3200 (0 : ℚ)] : List (List ℚ)).flatten = .silence := by
  have h : ([List.replicate 3200 (0 : ℚ)] : List (List ℚ)).flatten =
      List.replicate 3200 (0 : ℚ) := by
    rw [List.flatten_cons, List.flatten_nil, List.append_nil]
  rw [h]
  exact validate_replicate_zero_long

/-! ### Normalization lemmas -/

lemma peak_map_div (xs : List ℚ) (p : ℚ) (hp : 0 < p) :
    peak (xs.map fun x => x / p) = peak xs / p := by
  induction xs with
  | nil =>
    rw [List.map_nil, peak_nil, zero_div]
  | cons x xs ih =>
    rw [List.map_cons, peak_cons, peak_cons, ih, abs_div, abs_of_pos hp,
      max_div_div_right hp.le]

/-! ### Claim theorems -/

/-- C1: for every finalized sample array, the checks apply in the order and
with the exact thresholds of the specification: duration
(`sampleCount / 16000`) below `0.2` s is rejected as too short; otherwise
RMS below `0.001` together with peak below `0.01` is rejected as silence;
otherwise the array is accepted and every sample is rescaled by `1 / peak`
when the peak is positive.  `validate` is translated from the code
(`_transcribe_and_type`, lines 229-260) and `validateSpec` restates the
specification's §4.3 policy verbatim; they agree on every input.  The final
`float32` cast is the identity on the already-`float32` data (see module
comment). -/
theorem c1_validation_matches_spec_policy (xs : List ℚ) :
    validate xs = validateSpec xs := by
  have hdur : ((xs.length : ℚ) / 16000 < 1 / 5) ↔ ((xs.length : ℚ) < 3200) := by
    rw [div_lt_iff₀ (by norm_num : (0 : ℚ) < 16000)]
    norm_num
  rw [validate_def, validateSpec]
  simp only [normalizeAudio, silence_threshold, hdur]

/-- C7: peak normalization is idempotent.  For every sample array with
positive peak, normalizing an already-normalized array yields the same
array, and the peak of the normalized array is exactly `1` (the model is
exact rational arithmetic, so "up to floating tolerance" becomes equality). -/
theorem c7_normalization_idempotent (xs : List ℚ) (h : 0 < peak xs) :
    normalizeAudio (normalizeAudio xs) = normalizeAudio xs ∧
      peak (normalizeAudio xs) = 1 := by
  have hpk : peak (normalizeAudio xs) = 1 := by
    rw [normalizeAudio_of_pos h, peak_map_div xs (peak xs) h, div_self (ne_of_gt h)]
  refine ⟨?_, hpk⟩
  have hpos : 0 < peak (normalizeAudio xs) := by
    rw [hpk]
    exact one_pos
  rw [normalizeAudio_of_pos hpos, hpk]
  simp [div_one]

/-- Witness for C7 at the concrete array `[1/2]`. -/
theorem c7_normalization_witness :
    0 < peak [(1 : ℚ) / 2] ∧
      (normalizeAudio (normalizeAudio [(1 : ℚ) / 2]) = normalizeAudio [(1 : ℚ) / 2] ∧
        peak (normalizeAudio [(1 : ℚ) / 2]) = 1) :=
  have h : 0 < peak [(1 : ℚ) / 2] := by
    rw [peak_cons, peak_nil]
    exact lt_max_iff.mpr (Or.inl (abs_pos.mpr (by norm_num)))
  ⟨h, c7_normalization_idempotent [(1 : ℚ) / 2] h⟩

/-- C4 counterexample: the claim says every all-zero array is rejected as
silence, but a short all-zero array (here 100 samples, i.e. 1/160 s) is
rejected by the duration check as too short, never reaching the silence
check. -/
theorem c4_short_all_zero_not_rejected_as_silence :
    (∀ x ∈ List.replicate 100 (0 : ℚ), x = 0) ∧
      validate (List.replicate 100 (0 : ℚ)) = .tooShort ∧
      validate (List.replicate 100 (0 : ℚ)) ≠ .silence := by
  have ht : validate (List.replicate 100 (0 : ℚ)) = .tooShort :=
    validate_eq_tooShort (by rw [List.length_replicate]; norm_num)
  refine ⟨fun x hx => List.eq_of_mem_replicate hx, ht, ?_⟩
  rw [ht]
  simp

/-- C4 amended: every all-zero array is rejected before the normalization
step — as silence when it passes the duration check, as too short otherwise
— and whenever validation accepts an array its peak is positive, so the
division by the peak never has a zero divisor. -/
theorem c4_no_division_by_zero_amended (xs ys zs : List ℚ) (m : List ℚ)
    (hxz : ∀ x ∈ xs, x = 0) (hxlen : 3200 ≤ xs.length)
    (_hyz : ∀ x ∈ ys, x = 0) (hylen : ys.length < 3200)
    (hacc : validate zs = .accepted m) :
    validate xs = .silence ∧ validate ys = .tooShort ∧ 0 < peak zs := by
  refine ⟨?_, validate_eq_tooShort hylen, validate_accepted_peak_pos hacc⟩
  refine validate_eq_silence hxlen ?_ ?_
  · rw [rmsSq_eq_zero hxz]
    norm_num [silence_threshold]
  · rw [peak_eq_zero hxz]
    norm_num

/-- Witness for the amended C4: a long all-zero array, a short all-zero
array, and an accepted array with positive peak. -/
theorem c4_no_division_witness :
    (∀ x ∈ List.replicate 3200 (0 : ℚ), x = 0) ∧
      (∀ x ∈ List.replicate 100 (0 : ℚ), x = 0) ∧
      (validate (List.replicate 3200 (0 : ℚ)) = .silence ∧
        validate (List.replicate 100 (0 : ℚ)) = .tooShort ∧
        0 < peak (List.replicate 3200 ((1 : ℚ) / 2))) :=
  ⟨fun x hx => List.eq_of_mem_replicate hx,
    fun x hx => List.eq_of_mem_replicate hx,
    c4_no_division_by_zero_amended (List.replicate 3200 (0 : ℚ))
      (List.replicate 100 (0 : ℚ)) (List.replicate 3200 ((1 : ℚ) / 2))
      (List.replicate 3200 1)
      (fun x hx => List.eq_of_mem_replicate hx)
      (by rw [List.length_replicate])
      (fun x hx => List.eq_of_mem_replicate hx)
      (by rw [List.length_replicate]; norm_num)
      validate_replicate_half⟩

/-! ### Trace lemmas for `_transcribe_and_type` -/

lemma setStatus_not_mem_typeText (t : List Char) (fa : Option Nat) (s : Status) :
    Event.setStatus s ∉ typeText t fa := by
  cases fa with
  | none =>
    simp [typeText, List.mem_flatten, List.mem_map]
  | some k =>
    intro hmem
    simp only [typeText, List.mem_cons, List.mem_append, List.mem_flatten,
      List.mem_singleton] at hmem
    rcases hmem with h | ⟨⟨l, hl, hm⟩ | h | h⟩
    · exact Event.noConfusion h
    · rcases List.mem_map.mp hl with ⟨c, _, rfl⟩
      simp at hm
    · exact Event.noConfusion h
    · cases h

lemma transcribeAndType_of_raises {buf : List (List ℚ)} {n : List ℚ}
    {engine : List ℚ → EngineOutcome} (fa : Option Nat)
    (hne : buf.isEmpty = false) (hv : validate buf.flatten = .accepted n)
    (he : engine n = .raises) :
    transcribeAndType buf engine fa =
      [Event.transcribe, Event.setStatus .error, Event.sleep 1,
        Event.setStatus .ready] := by
  simp only [transcribeAndType, hne, Bool.false_eq_true, if_false, hv, he]

/-- C2 counterexample: the claim says every unexpected failure during
RECORDING or PROCESSING ends with an automatic return to READY after about
one second.  The `except` handler of `_record_audio` (lines 200-206), which
handles failures during RECORDING, only clears the flag and displays the
Error status: its complete trace contains no Ready update and no sleep, so
the status remains Error. -/
theorem c2_recording_failure_stays_in_error :
    (recordAudioFailure ⟨true, [], 1⟩).2 = [Event.setStatus .error] ∧
      Event.setStatus .ready ∉ (recordAudioFailure ⟨true, [], 1⟩).2 ∧
      (recordAudioFailure ⟨true, [], 1⟩).1.is_recording = false := by
  refine ⟨rfl, ?_, rfl⟩
  simp [recordAudioFailure]

/-- C2 amended: an unexpected failure during PROCESSING (an engine exception
in `_transcribe_and_type`) displays Error, sleeps one second and returns to
READY; an unexpected failure during RECORDING (the `_record_audio` handler)
clears the recording flag and displays Error without returning to READY. -/
theorem c2_error_recovery_amended (buf : List (List ℚ)) (n : List ℚ)
    (engine : List ℚ → EngineOutcome) (fa : Option Nat) (st : ControllerState)
    (hne : buf.isEmpty = false) (hv : validate buf.flatten = .accepted n)
    (he : engine n = .raises) :
    transcribeAndType buf engine fa =
      [Event.transcribe, Event.setStatus .error, Event.sleep 1,
        Event.setStatus .ready] ∧
      recordAudioFailure st =
        ({ st with is_recording := false }, [Event.setStatus .error]) :=
  ⟨transcribeAndType_of_raises fa hne hv he, rfl⟩

/-- Witness for the amended C2 at a concrete accepted buffer and a raising
engine. -/
theorem c2_error_recovery_amended_witness :
    validate ([List.replicate 3200 ((1 : ℚ) / 2)] : List (List ℚ)).flatten =
        .accepted (List.replicate 3200 1) ∧
      transcribeAndType [List.replicate 3200 ((1 : ℚ) / 2)]
          (fun _ => EngineOutcome.raises) none =
        [Event.transcribe, Event.setStatus .error, Event.sleep 1,
          Event.setStatus .ready] :=
  ⟨validate_buf_half,
    (c2_error_recovery_amended [List.replicate 3200 ((1 : ℚ) / 2)]
      (List.replicate 3200 1) (fun _ => EngineOutcome.raises) none
      ⟨true, [], 0⟩ rfl validate_buf_half rfl).1⟩

/-- C6 counterexample: the claim says every empty/too-short/silent session
returns to READY after a transient diagnostic status.  For a session with an
empty finalized buffer, the complete trace of `_transcribe_and_type`
(lines 218-221) is a single Ready update: no diagnostic status is ever
displayed and there is no hold (the "No audio buffer" message goes only to
the console log). -/
theorem c6_empty_buffer_no_transient_diagnostic :
    transcribeAndType [] (fun _ => EngineOutcome.ok ['h', 'i']) none =
      [Event.setStatus .ready] := rfl

/-- C6 amended: a session whose finalized buffer is too short or silent shows
the corresponding transient diagnostic status, holds one second and returns
to READY; a session with an empty buffer returns directly to READY with no
transient diagnostic status.  In all three cases the transcription engine is
never invoked.  In particular 0.1 s of recorded silence (1600 zero samples)
is rejected as too short: the duration check wins over the silence check. -/
theorem c6_rejection_paths_amended (bufT bufS : List (List ℚ))
    (engine : List ℚ → EngineOutcome) (fa : Option Nat)
    (hT1 : bufT.isEmpty = false) (hT2 : validate bufT.flatten = .tooShort)
    (hS1 : bufS.isEmpty = false) (hS2 : validate bufS.flatten = .silence) :
    transcribeAndType [] engine fa = [Event.setStatus .ready] ∧
      transcribeAndType bufT engine fa =
        [Event.setStatus .tooShort, Event.sleep 1, Event.setStatus .ready] ∧
      transcribeAndType bufS engine fa =
        [Event.setStatus .silence, Event.sleep 1, Event.setStatus .ready] ∧
      Event.transcribe ∉ transcribeAndType [] engine fa ∧
      Event.transcribe ∉ transcribeAndType bufT engine fa ∧
      Event.transcribe ∉ transcribeAndType bufS engine fa ∧
      validate (List.replicate 1600 (0 : ℚ)) = .tooShort := by
  have h0 : transcribeAndType [] engine fa = [Event.setStatus .ready] := rfl
  have hT : transcribeAndType bufT engine fa =
      [Event.setStatus .tooShort, Event.sleep 1, Event.setStatus .ready] := by
    simp only [transcribeAndType, hT1, Bool.false_eq_true, if_false, hT2]
  have hS : transcribeAndType bufS engine fa =
      [Event.setStatus .silence, Event.sleep 1, Event.setStatus .ready] := by
    simp only [transcribeAndType, hS1, Bool.false_eq_true, if_false, hS2]
  refine ⟨h0, hT, hS, ?_, ?_, ?_,
    validate_eq_tooShort (by rw [List.length_replicate]; norm_num)⟩
  · rw [h0]
    simp
  · rw [hT]
    simp
  · rw [hS]
    simp

/-- Witness for the amended C6: a 100-sample all-zero buffer (too short) and
a 3200-sample all-zero buffer (silence). -/
theorem c6_rejection_witness :
    validate ([List.replicate 100 (0 : ℚ)] : List (List ℚ)).flatten = .tooShort ∧
      validate ([List.replicate 3200 (0 : ℚ)] : List (List ℚ)).flatten = .silence ∧
      transcribeAndType [List.replicate 100 (0 : ℚ)]
          (fun _ => EngineOutcome.ok ['h']) none =
        [Event.setStatus .tooShort, Event.sleep 1, Event.setStatus .ready] ∧
      transcribeAndType [List.replicate 3200 (0 : ℚ)]
          (fun _ => EngineOutcome.ok ['h']) none =
        [Event.setStatus .silence, Event.sleep 1, Event.setStatus .ready] :=
  have h := c6_rejection_paths_amended [List.replicate 100 (0 : ℚ)]
    [List.replicate 3200 (0 : ℚ)] (fun _ => EngineOutcome.ok ['h']) none
    rfl validate_buf_zero_short rfl validate_buf_zero_long
  ⟨validate_buf_zero_short, validate_buf_zero_long, h.2.1, h.2.2.1⟩

/-- C8: whenever the engine returns a text that is empty after stripping
leading and trailing whitespace, no text-injection call occurs and the state
returns to READY via the "no text transcribed" outcome (the `else` branch of
lines 272-276): the trace is Transcribe, a transient NoText status, a one
second hold, then Ready, with no typed character. -/
theorem c8_empty_transcription_no_injection (buf : List (List ℚ)) (n : List ℚ)
    (engine : List ℚ → EngineOutcome) (fa : Option Nat) (raw : List Char)
    (hne : buf.isEmpty = false) (hv : validate buf.flatten = .accepted n)
    (he : engine n = .ok raw) (ht : pyStrip raw = []) :
    transcribeAndType buf engine fa =
      [Event.transcribe, Event.setStatus .noText, Event.sleep 1,
        Event.setStatus .ready] ∧
      ∀ c : Char, Event.typeChar c ∉ transcribeAndType buf engine fa := by
  have htrace : transcribeAndType buf engine fa =
      [Event.transcribe, Event.setStatus .noText, Event.sleep 1,
        Event.setStatus .ready] := by
    simp only [transcribeAndType, hne, Bool.false_eq_true, if_false, hv, he, ht,
      List.isEmpty_nil, if_true]
  refine ⟨htrace, fun c => ?_⟩
  rw [htrace]
  simp

/-- Witness for C8: an accepted buffer and an engine answering a single
space, which strips to the empty text. -/
theorem c8_empty_transcription_witness :
    pyStrip [' '] = [] ∧
      transcribeAndType [List.replicate 3200 ((1 : ℚ) / 2)]
          (fun _ => EngineOutcome.ok [' ']) none =
        [Event.transcribe, Event.setStatus .noText, Event.sleep 1,
          Event.setStatus .ready] :=
  ⟨rfl,
    (c8_empty_transcription_no_injection [List.replicate 3200 ((1 : ℚ) / 2)]
      (List.replicate 3200 1) (fun _ => EngineOutcome.ok [' ']) none [' ']
      rfl validate_buf_half rfl rfl).1⟩

/-- C9: when text injection raises after a successful transcription, the
error is caught and logged inside `_type_text` (lines 298-299), the session
never displays the Error status (the only status update in the whole trace
is the final Ready), and the session completes with Ready as the last
event. -/
theorem c9_injection_failure_recovered (buf : List (List ℚ)) (n : List ℚ)
    (engine : List ℚ → EngineOutcome) (raw : List Char) (k : Nat)
    (hne : buf.isEmpty = false) (hv : validate buf.flatten = .accepted n)
    (he : engine n = .ok raw) (ht : (pyStrip raw).isEmpty = false) :
    Event.logInjectionError ∈ transcribeAndType buf engine (some k) ∧
      (∀ s : Status, Event.setStatus s ∈ transcribeAndType buf engine (some k) →
        s = .ready) ∧
      (transcribeAndType buf engine (some k)).getLast? =
        some (Event.setStatus .ready) := by
  have htrace : transcribeAndType buf engine (some k) =
      Event.transcribe ::
        (typeText (pyStrip raw) (some k) ++ [Event.setStatus .ready]) := by
    simp only [transcribeAndType, hne, Bool.false_eq_true, if_false, hv, he, ht]
  refine ⟨?_, ?_, ?_⟩
  · rw [htrace]
    simp [typeText]
  · intro s hs
    rw [htrace] at hs
    rcases List.mem_cons.mp hs with h | h
    · simp at h
    · rcases List.mem_append.mp h with h | h
      · exact absurd h (setStatus_not_mem_typeText _ _ s)
      · rw [List.mem_singleton] at h
        injection h
  · rw [htrace, show Event.transcribe ::
        (typeText (pyStrip raw) (some k) ++ [Event.setStatus .ready]) =
        (Event.transcribe :: typeText (pyStrip raw) (some k)) ++
          [Event.setStatus .ready] from (List.cons_append _ _ _).symm,
      List.getLast?_concat]

/-- Witness for C9: an accepted buffer, a transcription of "hi", and an
injector that raises after one character. -/
theorem c9_injection_failure_witness :
    (pyStrip ['h', 'i']).isEmpty = false ∧
      Event.logInjectionError ∈
        transcribeAndType [List.replicate 3200 ((1 : ℚ) / 2)]
          (fun _ => EngineOutcome.ok ['h', 'i']) (some 1) ∧
      (transcribeAndType [List.replicate 3200 ((1 : ℚ) / 2)]
          (fun _ => EngineOutcome.ok ['h', 'i']) (some 1)).getLast? =
        some (Event.setStatus .ready) :=
  have h := c9_injection_failure_recovered [List.replicate 3200 ((1 : ℚ) / 2)]
    (List.replicate 3200 1) (fun _ => EngineOutcome.ok ['h', 'i'])
    ['h', 'i'] 1 rfl validate_buf_half rfl rfl
  ⟨rfl, h.1, h.2.2⟩

/-- C5: a trigger-key-down event while not recording (in particular while
READY, where `is_recording` is false) starts exactly one capture session:
the buffer is cleared, the session counter increases by one, exactly one
capture launch is performed and the state becomes RECORDING; a
trigger-key-down while already RECORDING (key repeat) leaves the state
unchanged and performs nothing (the `if not self.is_recording` guard on
line 124). -/
theorem c5_press_starts_exactly_one_session (trigger : TriggerKey) (key : PKey)
    (stReady stRec : ControllerState)
    (hm : keyMatches trigger key = true)
    (hReady : stReady.is_recording = false)
    (hRec : stRec.is_recording = true) :
    on_key_press trigger stReady key =
      ({ is_recording := true, audio_buffer := [],
         sessionsStarted := stReady.sessionsStarted + 1 },
       [Event.setStatus .recording, Event.startCapture]) ∧
      on_key_press trigger stRec key = (stRec, []) := by
  constructor <;> simp [on_key_press, hm, hReady, hRec]

/-- Witness for C5: the default Right-Ctrl trigger, one non-recording state
and one recording state. -/
theorem c5_press_witness :
    keyMatches (TriggerKey.special "ctrl_r") (PKey.special "ctrl_r") = true ∧
      on_key_press (TriggerKey.special "ctrl_r") ⟨false, [[1]], 5⟩
          (PKey.special "ctrl_r") =
        (⟨true, [], 6⟩,
         [Event.setStatus .recording, Event.startCapture]) ∧
      on_key_press (TriggerKey.special "ctrl_r") ⟨true, [], 7⟩
          (PKey.special "ctrl_r") = (⟨true, [], 7⟩, []) :=
  have h := c5_press_starts_exactly_one_session (TriggerKey.special "ctrl_r")
    (PKey.special "ctrl_r") ⟨false, [[1]], 5⟩ ⟨true, [], 7⟩ rfl rfl rfl
  ⟨rfl, h.1, h.2⟩

/-- C10: when the trigger key is configured as a printable character string,
a key event without a `char` attribute (any special key) is treated as
non-matching by the shared matching logic and both handlers leave the state
untouched; a `KeyCode` whose `char` is `None` also never matches
(`None == s` is false).  The matching function is total over every
key-event variant, so matching never fails. -/
theorem c10_special_key_never_matches_char_trigger (s name : String)
    (st : ControllerState) :
    keyMatches (TriggerKey.charKey s) (PKey.special name) = false ∧
      keyMatches (TriggerKey.charKey s) (PKey.keycode none) = false ∧
      on_key_press (TriggerKey.charKey s) st (PKey.special name) = (st, []) ∧
      on_key_release (TriggerKey.charKey s) st (PKey.special name) = (st, []) := by
  refine ⟨rfl, rfl, ?_, ?_⟩ <;>
    simp [on_key_press, on_key_release, keyMatches]

/-! ### The capture session and the buffer handed to validation (C3) -/

lemma foldl_audio_callback (stopTime : ℚ) (events : List CaptureEvent)
    (acc : List (List ℚ)) :
    events.foldl
        (fun buf e => audio_callback (decide (e.checkTime < stopTime)) buf e.chunk)
        acc
      = acc ++ (events.filter fun e => decide (e.checkTime < stopTime)).map
          (fun e => e.chunk) := by
  induction events generalizing acc with
  | nil => simp
  | cons e es ih =>
    rw [List.foldl_cons, ih, List.filter_cons]
    by_cases h : e.checkTime < stopTime
    · simp [audio_callback, h, List.append_assoc]
    · simp [audio_callback, h]

lemma capturedBuffer_eq (stopTime readTime : ℚ) (events : List CaptureEvent) :
    capturedBuffer stopTime readTime events
      = (events.filter fun e =>
          decide (e.checkTime < stopTime) && decide (e.appendTime ≤ readTime)).map
          (fun e => e.chunk) := by
  simp only [capturedBuffer]
  rw [foldl_audio_callback, List.filter_filter, List.nil_append]

/-- Splitting the appended chunks at the stop instant: when the capture
events are listed in nondecreasing order of their append instants, the
chunks appended by the read instant are exactly the chunks appended before
the stop followed by the chunks appended within the grace window. -/
lemma filter_window_split (stopTime : ℚ) (events : List CaptureEvent)
    (hsorted : events.Pairwise fun a b => a.appendTime ≤ b.appendTime) :
    events.filter (fun e =>
        decide (e.checkTime < stopTime) &&
          decide (e.appendTime ≤ stopTime + graceWait))
      = appendedBeforeStop stopTime events ++ appendedInGrace stopTime events := by
  induction events with
  | nil => simp [appendedBeforeStop, appendedInGrace]
  | cons e es ih =>
    rw [List.pairwise_cons] at hsorted
    obtain ⟨hle, hs⟩ := hsorted
    simp only [appendedBeforeStop, appendedInGrace, List.filter_cons] at ih ⊢
    by_cases hc : e.checkTime < stopTime
    · by_cases ha : e.appendTime ≤ stopTime
      · have hg : e.appendTime ≤ stopTime + graceWait :=
          le_trans ha (le_add_of_nonneg_right (by norm_num [graceWait]))
        have hng : ¬(stopTime < e.appendTime) := not_lt.mpr ha
        simp only [hc, ha, hg, hng, decide_True, decide_False, Bool.and_true,
          Bool.and_false, Bool.true_and, Bool.false_and, if_true,
          Bool.false_eq_true, if_false, ih hs, List.cons_append]
      · by_cases hg : e.appendTime ≤ stopTime + graceWait
        · have hsg : stopTime < e.appendTime := not_le.mp ha
          have hBnil : (es.filter fun x =>
              decide (x.checkTime < stopTime) && decide (x.appendTime ≤ stopTime))
                = [] := by
            rw [List.filter_eq_nil_iff]
            intro y hy
            have h1 : e.appendTime ≤ y.appendTime := hle y hy
            have h2 : ¬(y.appendTime ≤ stopTime) :=
              not_le.mpr (lt_of_lt_of_le hsg h1)
            simp [h2]
          rw [List.filter_eq_nil_iff] at hBnil
          simp only [hc, ha, hg, hsg, decide_True, decide_False, Bool.and_true,
            Bool.and_false, Bool.true_and, Bool.false_and, if_true,
            Bool.false_eq_true, if_false, ih hs,
            List.filter_eq_nil_iff.mpr hBnil, List.nil_append]
        · simp only [hc, ha, hg, decide_True, decide_False, Bool.and_true,
            Bool.and_false, Bool.true_and, Bool.false_and,
            Bool.false_eq_true, if_false, ih hs]
    · simp only [hc, decide_False, Bool.false_and, Bool.false_eq_true,
        if_false, ih hs]

/-- C3: for every capture session (events in arrival order, append instants
nondecreasing), the sample array handed to validation equals the exact
concatenation, in arrival order, of the chunks appended by the capture
callback before the stop signal followed by the chunks appended within the
0.2 s grace window after the stop signal. -/
theorem c3_buffer_is_concat_of_appended_chunks (stopTime : ℚ)
    (events : List CaptureEvent)
    (hsorted : events.Pairwise fun a b => a.appendTime ≤ b.appendTime) :
    handedToValidation stopTime events =
      ((appendedBeforeStop stopTime events).map fun e => e.chunk).flatten ++
        ((appendedInGrace stopTime events).map fun e => e.chunk).flatten := by
  simp only [handedToValidation]
  rw [capturedBuffer_eq, filter_window_split stopTime events hsorted,
    List.map_append, List.flatten_append]

/-- Witness for C3: a session stopping at instant 10 with one chunk appended
before the stop, one appended within the grace window `(10, 10.2]`, and one
arriving after the flag was cleared. -/
theorem c3_buffer_concat_witness :
    ([⟨[1, 2], 0, 1⟩, ⟨[3], 9, 51 / 5⟩, ⟨[4], 20, 30⟩] : List CaptureEvent).Pairwise
        (fun a b => a.appendTime ≤ b.appendTime) ∧
      handedToValidation 10 [⟨[1, 2], 0, 1⟩, ⟨[3], 9, 51 / 5⟩, ⟨[4], 20, 30⟩] =
        ((appendedBeforeStop 10
            [⟨[1, 2], 0, 1⟩, ⟨[3], 9, 51 / 5⟩, ⟨[4], 20, 30⟩]).map
          fun e => e.chunk).flatten ++
          ((appendedInGrace 10
              [⟨[1, 2], 0, 1⟩, ⟨[3], 9, 51 / 5⟩, ⟨[4], 20, 30⟩]).map
            fun e => e.chunk).flatten :=
  have hs : ([⟨[1, 2], 0, 1⟩, ⟨[3], 9, 51 / 5⟩, ⟨[4], 20, 30⟩] :
      List CaptureEvent).Pairwise (fun a b => a.appendTime ≤ b.appendTime) := by
    refine List.Pairwise.cons ?_ (List.Pairwise.cons ?_
      (List.Pairwise.cons ?_ List.Pairwise.nil))
    · intro a ha
      rcases List.mem_cons.mp ha with rfl | ha
      · norm_num
      · rcases List.mem_singleton.mp ha with rfl
        norm_num
    · intro a ha
      rcases List.mem_singleton.mp ha with rfl
      norm_num
    · intro a ha
      cases ha
  ⟨hs, c3_buffer_is_concat_of_appended_chunks 10 _ hs⟩

end WhisperApp
